import Mathlib

/-!
# Verification of the caching subsystem of `@qwickapps/schema`

This file gives a shallow embedding, in Lean 4, of the caching layer of the
repository: the `MemoryCacheProvider` class (an insertion-ordered key → entry
table with LRU eviction and TTL expiration, `src/providers/MemoryCacheProvider.ts`)
and the `CachedDataProvider` wrapper (`src/providers/CachedDataProvider.ts`),
together with theorems settling the behavioural claims about them.

Modelling conventions:
* JavaScript runtime values that flow through the cache are modelled by the
  inductive type `JVal`; JavaScript truthiness (`if (x)`) is the Boolean
  function `truthy`.
* A JavaScript `Map` is modelled as an association list `List (String × α)`
  in insertion order.  `Map.delete` removes the key's entry (`mapDelete`),
  `Map.set` overwrites in place when the key is present and appends
  otherwise (`mapSet`), and `map.keys().next().value` is `List.head?`.
* `Date.now()` is passed explicitly as an `Int` argument `now` (milliseconds);
  TTLs are `Int` (JavaScript numbers), a per-entry TTL is `Option Int`
  (`undefined` is `none`).
* Methods that mutate `this` become functions from state to state; methods
  that also return a value return a pair.
* Logging (`this.log`) has no observable effect on the data model and is
  omitted.
-/

/-- A JavaScript value, as far as the cache layer observes it:
`null`/`undefined`, booleans, numbers, strings, arrays and objects. -/
inductive JVal : Type where
  | vnull : JVal
  | vbool : Bool → JVal
  | vnum : Int → JVal
  | vstr : String → JVal
  | varr : List JVal → JVal
  | vobj : List (String × JVal) → JVal

/-- JavaScript truthiness of a `JVal`: `null`/`undefined`, `false`, `0` and
`""` are falsy; every array or object (even empty) is truthy. -/
def truthy : JVal → Bool
  | JVal.vnull => false
  | JVal.vbool b => b
  | JVal.vnum n => n != 0
  | JVal.vstr s => s != ""
  | JVal.varr _ => true
  | JVal.vobj _ => true

/-- Embeds `Map.delete key` on an association list: removes the entry for `key`
(association lists built by `mapSet` have at most one). -/
def mapDelete {α : Type} (m : List (String × α)) (key : String) :
    List (String × α) :=
  m.filter (fun p => p.1 != key)

/-- Embeds `Map.set key v` on an association list: JavaScript `Map.set` overwrites
the value in place when the key is present (keeping its position) and appends
at the end of the iteration order otherwise. -/
def mapSet {α : Type} (m : List (String × α)) (key : String) (v : α) :
    List (String × α) :=
  if m.any (fun p => p.1 == key) then
    m.map (fun p => if p.1 == key then (key, v) else p)
  else
    m ++ [(key, v)]

/-- Embeds `CacheEntry<T>` of `MemoryCacheProvider.ts`: payload, storage timestamp
(`Date.now()` at `set` time) and optional per-entry TTL override. -/
structure CacheEntry : Type where
  data : JVal
  timestamp : Int
  ttl : Option Int

/-- The state of a `MemoryCacheProvider` instance: the insertion-ordered
`cache` table together with the resolved `Required<MemoryCacheConfig>`
(`maxSize`, `defaultTtl`; `enableLogging` only affects logging and is
omitted). -/
structure MemoryCacheState : Type where
  cache : List (String × CacheEntry)
  maxSize : Nat
  defaultTtl : Int

/-- The effective TTL used by `get` and `cleanup`:
`entry.ttl || this.config.defaultTtl`.  JavaScript `||` returns the default
when the per-entry TTL is `undefined` — or `0`, which is falsy. -/
def ttlOrDefault (ttl : Option Int) (defaultTtl : Int) : Int :=
  match ttl with
  | none => defaultTtl
  | some t => if t = 0 then defaultTtl else t

namespace MemoryCacheProvider

/-- Embeds `MemoryCacheProvider.get(key)`.  Missing key: `null`, no state change.
Present but expired (`now - entry.timestamp > ttl` with `ttl` the effective
TTL): the entry is deleted and `null` returned.  Present and live: the entry
is moved to the end of the iteration order (`delete` then `set` of the same
entry object) and its data returned. -/
def get (s : MemoryCacheState) (key : String) (now : Int) :
    Option JVal × MemoryCacheState :=
  match s.cache.lookup key with
  | none => (none, s)
  | some entry =>
    let ttl := ttlOrDefault entry.ttl s.defaultTtl
    if now - entry.timestamp > ttl then
      (none, { s with cache := mapDelete s.cache key })
    else
      (some entry.data,
        { s with cache := mapSet (mapDelete s.cache key) key entry })

/-- Embeds `MemoryCacheProvider.set(key, value, ttl?)`.  An existing entry for the
key is removed first; then, if the table size is still at or above `maxSize`,
the oldest key (first in iteration order) is evicted — but only when that key
is truthy (`if (oldestKey)`), so an empty-string oldest key is never evicted.
Finally the new entry is appended with the current timestamp. -/
def set (s : MemoryCacheState) (key : String) (value : JVal) (ttl : Option Int)
    (now : Int) : MemoryCacheState :=
  let c0 := if s.cache.any (fun p => p.1 == key) then mapDelete s.cache key
            else s.cache
  let c1 :=
    if s.maxSize ≤ c0.length then
      match c0.head? with
      | some p => if p.1 ≠ "" then mapDelete c0 p.1 else c0
      | none => c0
    else c0
  { s with cache := mapSet c1 key ⟨value, now, ttl⟩ }

/-- Embeds `MemoryCacheProvider.clear(key?)`.  `if (key)` is a truthiness test, so
both `clear()` and `clear("")` take the clear-all branch; a truthy key deletes
just that entry (silently a no-op when absent). -/
def clear (s : MemoryCacheState) (key : Option String) : MemoryCacheState :=
  match key with
  | some k =>
    if k = "" then { s with cache := [] }
    else { s with cache := mapDelete s.cache k }
  | none => { s with cache := [] }

/-- Embeds `MemoryCacheProvider.cleanup()`: deletes every expired entry (same
expiry test as `get`) and returns the removed count. -/
def cleanup (s : MemoryCacheState) (now : Int) : MemoryCacheState × Nat :=
  let kept := s.cache.filter
    (fun p => !(now - p.2.timestamp > ttlOrDefault p.2.ttl s.defaultTtl))
  ({ s with cache := kept }, s.cache.length - kept.length)

/-- Embeds `MemoryCacheProvider.getStats()`. -/
def getStats (s : MemoryCacheState) : Nat × Nat × List String :=
  (s.cache.length, s.maxSize, s.cache.map Prod.fst)

end MemoryCacheProvider

/-- One call against a `MemoryCacheProvider`, with the `Date.now()` value at
which it runs. -/
inductive CacheOp : Type where
  | opSet (key : String) (value : JVal) (ttl : Option Int) (now : Int)
  | opGet (key : String) (now : Int)
  | opClear (key : Option String)
  | opCleanup (now : Int)

/-- The state transition of a single `MemoryCacheProvider` call. -/
def MemoryCacheProvider.step (s : MemoryCacheState) (op : CacheOp) :
    MemoryCacheState :=
  match op with
  | CacheOp.opSet k v t n => MemoryCacheProvider.set s k v t n
  | CacheOp.opGet k n => (MemoryCacheProvider.get s k n).2
  | CacheOp.opClear k => MemoryCacheProvider.clear s k
  | CacheOp.opCleanup n => (MemoryCacheProvider.cleanup s n).1

/-- Running a sequence of calls against a `MemoryCacheProvider`. -/
def MemoryCacheProvider.runOps (s : MemoryCacheState) (ops : List CacheOp) :
    MemoryCacheState :=
  ops.foldl MemoryCacheProvider.step s

/-- A fresh `MemoryCacheProvider` with the given resolved config. -/
def MemoryCacheProvider.empty (maxSize : Nat) (defaultTtl : Int) :
    MemoryCacheState :=
  ⟨[], maxSize, defaultTtl⟩

/-- Embeds `DataResponse<T>` of `DataProvider.ts`: the `data` payload plus the
envelope fields (`loading?`, `error?`, `cached?`, `meta?`).  `error` and
`meta` are kept opaque. -/
structure DataResponse : Type where
  data : JVal
  loading : Option Bool
  error : Option String
  cached : Option Bool
  meta : Option JVal

/-- The state of a `CachedDataProvider` whose cache provider is the default
`MemoryCacheProvider` (caching enabled).  `defaultTTL` is the resolved
`Required<CachedDataProviderConfig>.defaultTTL`. -/
structure CachedDataProviderState : Type where
  cache : MemoryCacheState
  defaultTTL : Int

namespace CachedDataProvider

/-- The shared miss path of `CachedDataProvider.get`/`select`: fetch
`response` from the collaborator, store `response.data` under `cacheKey` with
the configured default TTL when it is truthy (`if (response.data)`), and
return the response with `cached` forced to `false`. -/
def missFetch (s : CachedDataProviderState) (response : DataResponse)
    (cacheKey : String) (now : Int) :
    DataResponse × CachedDataProviderState :=
  let newCache :=
    if truthy response.data then
      MemoryCacheProvider.set s.cache cacheKey response.data
        (some s.defaultTTL) now
    else s.cache
  ({ response with cached := some false }, { s with cache := newCache })

/-- Embeds `CachedDataProvider.get(slug)` with caching enabled.  The collaborator is
a function `provider` from slugs to responses (its `IDataProvider.get`).
Cache key `"get:" + slug`; `cacheProvider.get` runs first (with its move-to-
MRU / lazy-expiry state effects); a truthy cached value short-circuits into
the hit path, which still fetches a fresh response from the collaborator and
returns it with `data` replaced by the cached value and `cached: true`;
otherwise the miss path of `missFetch` runs. -/
def get (s : CachedDataProviderState) (provider : String → DataResponse)
    (slug : String) (now : Int) : DataResponse × CachedDataProviderState :=
  let cacheKey := "get:" ++ slug
  let r := MemoryCacheProvider.get s.cache cacheKey now
  let s' : CachedDataProviderState := { s with cache := r.2 }
  match r.1 with
  | some v =>
    if truthy v then
      ({ provider slug with data := v, cached := some true }, s')
    else missFetch s' (provider slug) cacheKey now
  | none => missFetch s' (provider slug) cacheKey now

/-- Embeds `CachedDataProvider.select(schema, options)` with caching enabled.  The
options object is represented by its `JSON.stringify` serialization
`optionsJson`, and the collaborator by a function from `(schema, optionsJson)`
to responses.  Cache key `"select:" + schema + ":" + JSON.stringify(options)`;
otherwise the same hit/miss logic as `get`. -/
def select (s : CachedDataProviderState)
    (provider : String → String → DataResponse) (schema : String)
    (optionsJson : String) (now : Int) :
    DataResponse × CachedDataProviderState :=
  let cacheKey := "select:" ++ schema ++ ":" ++ optionsJson
  let r := MemoryCacheProvider.get s.cache cacheKey now
  let s' : CachedDataProviderState := { s with cache := r.2 }
  match r.1 with
  | some v =>
    if truthy v then
      ({ provider schema optionsJson with data := v, cached := some true }, s')
    else missFetch s' (provider schema optionsJson) cacheKey now
  | none => missFetch s' (provider schema optionsJson) cacheKey now

/-- Embeds `CachedDataProvider.setCacheEntryManually(key, data, ttl?)` with caching
enabled: `cacheProvider.set(key, data, ttl || this.config.defaultTTL)` — a
missing or zero (falsy) TTL argument falls back to the configured default. -/
def setCacheEntryManually (s : CachedDataProviderState) (key : String)
    (data : JVal) (ttl : Option Int) (now : Int) : CachedDataProviderState :=
  let t := match ttl with
    | none => s.defaultTTL
    | some t0 => if t0 = 0 then s.defaultTTL else t0
  { s with cache := MemoryCacheProvider.set s.cache key data (some t) now }

end CachedDataProvider

/-- The statistics object returned by `ICacheProvider.getStats?.()`. -/
structure CacheStats : Type where
  size : Nat
  maxSize : Nat
  keys : List String

/-- A custom `ICacheProvider` implementation over an abstract state type `σ`:
the required `get`/`set`/`clear` operations plus the optional `getStats`
(`none` models a provider that does not expose it). -/
structure CustomCacheProvider (σ : Type) : Type where
  getVal : σ → String → Option JVal
  setVal : σ → String → JVal → Option Int → σ
  clearKey : σ → Option String → σ
  getStats : Option (σ → CacheStats)

/-- One step of `dropToMatch`: strip characters until `p` is a prefix of the
remainder, returning what follows the match, `none` when `p` never occurs. -/
def dropToMatch (p : List Char) : List Char → Option (List Char)
  | [] => if p.isEmpty then some [] else none
  | c :: t =>
    if p.isPrefixOf (c :: t) then some ((c :: t).drop p.length)
    else dropToMatch p t

/-- The literal pieces of a wildcard pattern must occur in order as
substrings. -/
def piecesInOrder : List (List Char) → List Char → Bool
  | [], _ => true
  | p :: ps, s =>
    match dropToMatch p s with
    | some rest => piecesInOrder ps rest
    | none => false

/-- Models `new RegExp(key.replace(/\*/g, ".*")).test(cacheKey)` for wildcard
`clearCache` patterns: the pattern is split at the stars and its literal
pieces must occur in the candidate key, in order, unanchored at both ends
(the pieces of the patterns used by the repository contain no other regular-
expression metacharacters). -/
def globTest (pattern s : String) : Bool :=
  piecesInOrder ((pattern.splitOn "*").map String.toList) s.toList

/-- Models `key.includes('*')`: whether the key contains a star. -/
def containsStar (key : String) : Bool :=
  key.toList.any (fun c => c == '*')

/-- Embeds `CachedDataProvider.clearCache(key?)` over a custom cache provider.
`if (key)` is a truthiness test, so a missing or empty key clears the whole
cache.  A key containing `*` enumerates the keys from `getStats?.()` and
clears each matching one — or does nothing at all when the provider does not
expose `getStats`.  Any other key is cleared directly. -/
def CachedDataProvider.clearCache {σ : Type}
    (cp : CustomCacheProvider σ) (st : σ) (key : Option String) : σ :=
  match key with
  | some k =>
    if k = "" then cp.clearKey st none
    else if containsStar k then
      match cp.getStats with
      | some stats =>
        ((stats st).keys.filter (fun ck => globTest k ck)).foldl
          (fun acc ck => cp.clearKey acc (some ck)) st
      | none => st
    else cp.clearKey st (some k)
  | none => cp.clearKey st none

/-! ## Association-list lemmas -/

theorem lookup_cons_self {α : Type} (k : String) (v : α)
    (t : List (String × α)) : List.lookup k ((k, v) :: t) = some v := by
  simp [List.lookup]

theorem lookup_cons_ne {α : Type} {k a : String} (v : α)
    (t : List (String × α)) (h : k ≠ a) :
    List.lookup k ((a, v) :: t) = List.lookup k t := by
  simp [List.lookup, beq_eq_false_iff_ne.mpr h]

theorem mapDelete_cons_self {α : Type} (k : String) (v : α)
    (t : List (String × α)) : mapDelete ((k, v) :: t) k = mapDelete t k := by
  simp [mapDelete]

theorem mapDelete_cons_ne {α : Type} {k₁ k : String} (v₁ : α)
    (t : List (String × α)) (h : k₁ ≠ k) :
    mapDelete ((k₁, v₁) :: t) k = (k₁, v₁) :: mapDelete t k := by
  simp [mapDelete, List.filter_cons, h]

theorem lookup_mapDelete_self {α : Type} (m : List (String × α)) (k : String) :
    List.lookup k (mapDelete m k) = none := by
  induction m with
  | nil => rfl
  | cons p t ih =>
    by_cases h : p.1 = k
    · rw [show p = (k, p.2) by rw [← h], mapDelete_cons_self]
      exact ih
    · rw [show p = (p.1, p.2) from rfl, mapDelete_cons_ne p.2 t h,
        lookup_cons_ne p.2 _ (fun hk => h hk.symm)]
      exact ih

theorem lookup_of_any_eq_false {α : Type} {m : List (String × α)} {k : String}
    (h : m.any (fun p => p.1 == k) = false) : List.lookup k m = none := by
  induction m with
  | nil => rfl
  | cons p t ih =>
    simp only [List.any_cons, Bool.or_eq_false_iff, beq_eq_false_iff_ne] at h
    rw [show p = (p.1, p.2) from rfl,
      lookup_cons_ne p.2 t (fun hk => h.1 hk.symm)]
    exact ih h.2

theorem mapSet_cons_ne {α : Type} {k₁ k : String} (v₁ v : α)
    (t : List (String × α)) (h : k₁ ≠ k) :
    mapSet ((k₁, v₁) :: t) k v = (k₁, v₁) :: mapSet t k v := by
  have hb : (k₁ == k) = false := beq_eq_false_iff_ne.mpr h
  by_cases ht : t.any (fun p => p.1 == k) = true
  · simp only [mapSet, List.any_cons, hb, Bool.false_or, ht, if_true,
      List.map_cons]
    simp
  · rw [Bool.not_eq_true] at ht
    simp only [mapSet, List.any_cons, hb, Bool.false_or, ht, Bool.false_eq_true,
      if_false, List.cons_append]

theorem lookup_mapSet_self {α : Type} (m : List (String × α)) (k : String)
    (v : α) : List.lookup k (mapSet m k v) = some v := by
  induction m with
  | nil => simp [mapSet, lookup_cons_self]
  | cons p t ih =>
    by_cases h : p.1 = k
    · have hb : (p.1 == k) = true := beq_iff_eq.mpr h
      simp only [mapSet, List.any_cons, hb, Bool.true_or, if_true,
        List.map_cons]
      exact lookup_cons_self k v _
    · rw [show p = (p.1, p.2) from rfl, mapSet_cons_ne p.2 v t h,
        lookup_cons_ne p.2 _ (fun hk => h hk.symm)]
      exact ih

theorem length_mapDelete_le {α : Type} (m : List (String × α)) (k : String) :
    (mapDelete m k).length ≤ m.length :=
  List.length_filter_le _ m

theorem length_mapDelete_lt {α : Type} {m : List (String × α)} {k : String}
    (h : m.any (fun p => p.1 == k) = true) :
    (mapDelete m k).length < m.length := by
  induction m with
  | nil => simp at h
  | cons p t ih =>
    simp only [List.any_cons, Bool.or_eq_true, beq_iff_eq,
      decide_eq_true_eq] at h
    by_cases hp : p.1 = k
    · rw [show p = (k, p.2) by rw [← hp], mapDelete_cons_self]
      exact Nat.lt_succ_of_le (length_mapDelete_le t k)
    · rw [show p = (p.1, p.2) from rfl, mapDelete_cons_ne p.2 t hp]
      have hh : (t.any fun p => p.1 == k) = true := by
        rcases h with h1 | h2
        · exact absurd h1 hp
        · exact h2
      simpa using Nat.succ_lt_succ (ih hh)

theorem length_mapSet_of_absent {α : Type} {m : List (String × α)}
    {k : String} (v : α) (h : m.any (fun p => p.1 == k) = false) :
    (mapSet m k v).length = m.length + 1 := by
  simp [mapSet, h]

theorem length_mapSet_le {α : Type} (m : List (String × α)) (k : String)
    (v : α) : (mapSet m k v).length ≤ m.length + 1 := by
  by_cases h : m.any (fun p => p.1 == k) = true
  · simp only [mapSet, h, if_true, List.length_map]
    exact Nat.le_succ _
  · rw [Bool.not_eq_true] at h
    rw [length_mapSet_of_absent v h]

theorem any_mapDelete_self {α : Type} (m : List (String × α)) (k : String) :
    (mapDelete m k).any (fun p => p.1 == k) = false := by
  simp only [mapDelete, List.any_eq_false]
  intro p hp
  have := List.of_mem_filter hp
  simpa using this

theorem mem_mapDelete {α : Type} {m : List (String × α)} {k : String}
    {p : String × α} (h : p ∈ mapDelete m k) : p ∈ m :=
  List.mem_of_mem_filter h

theorem mem_mapSet {α : Type} {m : List (String × α)} {k : String} {v : α}
    {p : String × α} (h : p ∈ mapSet m k v) : p ∈ m ∨ p = (k, v) := by
  by_cases hc : m.any (fun q => q.1 == k) = true
  · simp only [mapSet, hc, if_true, List.mem_map] at h
    obtain ⟨q, hq, hqe⟩ := h
    by_cases hqk : (q.1 == k) = true
    · right
      rw [← hqe, if_pos hqk]
    · left
      rw [← hqe, if_neg hqk]
      exact hq
  · rw [Bool.not_eq_true] at hc
    simp only [mapSet, hc, Bool.false_eq_true, if_false, List.mem_append,
      List.mem_singleton] at h
    exact h

theorem mapDelete_eq_self_of_lookup_none {α : Type} {m : List (String × α)}
    {k : String} (h : List.lookup k m = none) : mapDelete m k = m := by
  induction m with
  | nil => rfl
  | cons p t ih =>
    by_cases hp : k = p.1
    · rw [show p = (p.1, p.2) from rfl, ← hp, lookup_cons_self] at h
      exact absurd h (by simp)
    · rw [show p = (p.1, p.2) from rfl, lookup_cons_ne p.2 t hp] at h
      rw [show p = (p.1, p.2) from rfl,
        mapDelete_cons_ne p.2 t (fun he => hp he.symm), ih h]

theorem lookup_filter_none {α : Type} {m : List (String × α)} {k : String}
    (q : String × α → Bool) (h : List.lookup k m = none) :
    List.lookup k (m.filter q) = none := by
  induction m with
  | nil => rfl
  | cons p t ih =>
    by_cases hp : k = p.1
    · rw [show p = (p.1, p.2) from rfl, ← hp, lookup_cons_self] at h
      exact absurd h (by simp)
    · rw [show p = (p.1, p.2) from rfl, lookup_cons_ne p.2 t hp] at h
      rw [List.filter_cons]
      by_cases hq : q p = true
      · rw [if_pos hq, show p = (p.1, p.2) from rfl, lookup_cons_ne p.2 _ hp]
        exact ih h
      · rw [Bool.not_eq_true] at hq
        rw [hq]
        simp only [Bool.false_eq_true, if_false]
        exact ih h

theorem lookup_filter_of_nodup {α : Type} {m : List (String × α)} {k : String}
    {e : α} (q : String × α → Bool) (hnd : (m.map Prod.fst).Nodup)
    (h : List.lookup k m = some e) :
    List.lookup k (m.filter q) = if q (k, e) then some e else none := by
  induction m with
  | nil => simp at h
  | cons p t ih =>
    simp only [List.map_cons, List.nodup_cons] at hnd
    by_cases hp : k = p.1
    · rw [show p = (p.1, p.2) from rfl, ← hp, lookup_cons_self] at h
      have he : p.2 = e := by simpa using h
      rw [List.filter_cons]
      by_cases hq : q p = true
      · rw [if_pos hq, show p = (p.1, p.2) from rfl, ← hp, lookup_cons_self]
        rw [show (k, e) = p by rw [show p = (p.1, p.2) from rfl, ← hp, he],
          if_pos hq, he]
      · rw [Bool.not_eq_true] at hq
        rw [show (k, e) = p by rw [show p = (p.1, p.2) from rfl, ← hp, he], hq]
        simp only [Bool.false_eq_true, if_false]
        apply lookup_filter_none
        apply lookup_of_any_eq_false
        simp only [List.any_eq_false, beq_iff_eq]
        intro r hr hrk
        rw [hp] at hrk
        exact hnd.1 (hrk ▸ List.mem_map_of_mem Prod.fst hr)
    · rw [show p = (p.1, p.2) from rfl, lookup_cons_ne p.2 t hp] at h
      rw [List.filter_cons]
      by_cases hq : q p = true
      · rw [if_pos hq, show p = (p.1, p.2) from rfl, lookup_cons_ne p.2 _ hp]
        exact ih hnd.2 h
      · rw [Bool.not_eq_true] at hq
        rw [hq]
        simp only [Bool.false_eq_true, if_false]
        exact ih hnd.2 h

/-! ## Step-characterisation lemmas for the cache operations -/

theorem MemoryCacheProvider.get_eq_of_lookup_none {s : MemoryCacheState}
    {key : String} (now : Int) (h : s.cache.lookup key = none) :
    MemoryCacheProvider.get s key now = (none, s) := by
  simp only [MemoryCacheProvider.get, h]

theorem MemoryCacheProvider.get_eq_of_live {s : MemoryCacheState}
    {key : String} {now : Int} {e : CacheEntry}
    (h : s.cache.lookup key = some e)
    (hl : now - e.timestamp ≤ ttlOrDefault e.ttl s.defaultTtl) :
    MemoryCacheProvider.get s key now =
      (some e.data, { s with cache := mapSet (mapDelete s.cache key) key e }) := by
  simp only [MemoryCacheProvider.get, h]
  rw [if_neg (by omega)]

theorem MemoryCacheProvider.get_eq_of_expired {s : MemoryCacheState}
    {key : String} {now : Int} {e : CacheEntry}
    (h : s.cache.lookup key = some e)
    (hl : now - e.timestamp > ttlOrDefault e.ttl s.defaultTtl) :
    MemoryCacheProvider.get s key now =
      (none, { s with cache := mapDelete s.cache key }) := by
  simp only [MemoryCacheProvider.get, h]
  rw [if_pos (by omega)]

theorem CachedDataProvider.get_eq_hit {s : CachedDataProviderState}
    {slug : String} {now : Int} {v : JVal} {c' : MemoryCacheState}
    (provider : String → DataResponse)
    (h : MemoryCacheProvider.get s.cache ("get:" ++ slug) now = (some v, c'))
    (ht : truthy v = true) :
    CachedDataProvider.get s provider slug now =
      ({ provider slug with data := v, cached := some true },
        { s with cache := c' }) := by
  simp only [CachedDataProvider.get, h, ht, if_true]

theorem CachedDataProvider.get_eq_miss {s : CachedDataProviderState}
    {slug : String} {now : Int} {c' : MemoryCacheState}
    (provider : String → DataResponse)
    (h : MemoryCacheProvider.get s.cache ("get:" ++ slug) now = (none, c')) :
    CachedDataProvider.get s provider slug now =
      CachedDataProvider.missFetch { s with cache := c' } (provider slug)
        ("get:" ++ slug) now := by
  simp only [CachedDataProvider.get, h]

theorem CachedDataProvider.get_eq_miss_falsy {s : CachedDataProviderState}
    {slug : String} {now : Int} {v : JVal} {c' : MemoryCacheState}
    (provider : String → DataResponse)
    (h : MemoryCacheProvider.get s.cache ("get:" ++ slug) now = (some v, c'))
    (ht : truthy v = false) :
    CachedDataProvider.get s provider slug now =
      CachedDataProvider.missFetch { s with cache := c' } (provider slug)
        ("get:" ++ slug) now := by
  simp only [CachedDataProvider.get, h, ht]
  simp

theorem CachedDataProvider.select_eq_miss {s : CachedDataProviderState}
    {schema optionsJson : String} {now : Int} {c' : MemoryCacheState}
    (provider : String → String → DataResponse)
    (h : MemoryCacheProvider.get s.cache
      ("select:" ++ schema ++ ":" ++ optionsJson) now = (none, c')) :
    CachedDataProvider.select s provider schema optionsJson now =
      CachedDataProvider.missFetch { s with cache := c' }
        (provider schema optionsJson)
        ("select:" ++ schema ++ ":" ++ optionsJson) now := by
  simp only [CachedDataProvider.select, h]

theorem CachedDataProvider.select_eq_miss_falsy {s : CachedDataProviderState}
    {schema optionsJson : String} {now : Int} {v : JVal}
    {c' : MemoryCacheState} (provider : String → String → DataResponse)
    (h : MemoryCacheProvider.get s.cache
      ("select:" ++ schema ++ ":" ++ optionsJson) now = (some v, c'))
    (ht : truthy v = false) :
    CachedDataProvider.select s provider schema optionsJson now =
      CachedDataProvider.missFetch { s with cache := c' }
        (provider schema optionsJson)
        ("select:" ++ schema ++ ":" ++ optionsJson) now := by
  simp only [CachedDataProvider.select, h, ht]
  simp

/-! ## Claim theorems -/

/-- C1: with caching enabled and a live (truthy) cached value `v` under key
`"get:" + slug`, `CachedDataProvider.get(slug)` still calls the wrapped
collaborator's `get` and returns that fresh response with its `data` field
replaced by the cached value and `cached` set to `true` — the envelope
(`loading`, `error`, `meta`) is the collaborator's fresh one. -/
theorem CachedDataProvider.hit_refetches_and_substitutes_cached_data
    (s : CachedDataProviderState) (provider : String → DataResponse)
    (slug : String) (now : Int) (v : JVal)
    (h : (MemoryCacheProvider.get s.cache ("get:" ++ slug) now).1 = some v)
    (ht : truthy v = true) :
    (CachedDataProvider.get s provider slug now).1 =
      { provider slug with data := v, cached := some true } := by
  rcases hr : MemoryCacheProvider.get s.cache ("get:" ++ slug) now with ⟨r1, c'⟩
  rw [hr] at h
  simp only at h
  subst h
  rw [CachedDataProvider.get_eq_hit provider hr ht]

/-- Witness for C1 at a concrete state: the value `7` is cached under
`"get:x"`, the collaborator returns `9` with a `meta` envelope; the wrapper
returns the cached `7`, `cached: true`, and the collaborator's envelope. -/
theorem CachedDataProvider.hit_refetches_witness :
    (CachedDataProvider.get
      ⟨⟨[("get:x", ⟨JVal.vnum 7, 0, none⟩)], 100, 1000⟩, 500⟩
      (fun _ => ⟨JVal.vnum 9, none, none, none, some (JVal.vstr "m")⟩)
      "x" 1).1 =
      ⟨JVal.vnum 7, none, none, some true, some (JVal.vstr "m")⟩ :=
  CachedDataProvider.hit_refetches_and_substitutes_cached_data
    ⟨⟨[("get:x", ⟨JVal.vnum 7, 0, none⟩)], 100, 1000⟩, 500⟩
    (fun _ => ⟨JVal.vnum 9, none, none, none, some (JVal.vstr "m")⟩)
    "x" 1 (JVal.vnum 7) rfl rfl

/-- Modelled from the claim's words (C4): the effective TTL is "the entry's
own TTL, or the cache's default when absent". -/
def specEffectiveTtl (ttl : Option Int) (defaultTtl : Int) : Int :=
  match ttl with
  | some t => t
  | none => defaultTtl

/-- Counterexample to C4 as stated: an entry stored with per-entry TTL `0`.
Its claimed effective TTL is `0`, and at elapsed time `1 > 0` the claim says
`get` returns absent — but the code (`entry.ttl || defaultTtl`, where `0` is
falsy) applies the default TTL `300000` and returns the stored value. -/
theorem MemoryCacheProvider.get_ttl_zero_counterexample :
    specEffectiveTtl (some 0) 300000 = 0 ∧
    (1 : Int) - 0 > specEffectiveTtl (some 0) 300000 ∧
    (MemoryCacheProvider.get
      ⟨[("k", ⟨JVal.vnum 7, 0, some 0⟩)], 100, 300000⟩ "k" 1).1 =
      some (JVal.vnum 7) :=
  ⟨rfl, by decide, rfl⟩

/-- C4 amended: with the effective TTL being the entry's own TTL when that is
present and nonzero, and the cache's default otherwise (`entry.ttl ||
defaultTtl`): `get` returns the stored value at elapsed time `e ≤ ttl`, and
at `e > ttl` returns absent and removes the entry from the table. -/
theorem MemoryCacheProvider.get_respects_effective_ttl
    (s : MemoryCacheState) (key : String) (now : Int) (e : CacheEntry)
    (h : s.cache.lookup key = some e) :
    (now - e.timestamp ≤ ttlOrDefault e.ttl s.defaultTtl →
      (MemoryCacheProvider.get s key now).1 = some e.data) ∧
    (now - e.timestamp > ttlOrDefault e.ttl s.defaultTtl →
      (MemoryCacheProvider.get s key now).1 = none ∧
      (MemoryCacheProvider.get s key now).2.cache.lookup key = none) := by
  constructor
  · intro hl
    rw [MemoryCacheProvider.get_eq_of_live h hl]
  · intro hl
    rw [MemoryCacheProvider.get_eq_of_expired h hl]
    exact ⟨rfl, lookup_mapDelete_self _ _⟩

/-- Witness for the amended C4: an entry with TTL `10` stored at time `0` is
returned at `now = 10` and absent (and removed) at `now = 11`. -/
theorem MemoryCacheProvider.get_respects_effective_ttl_witness :
    (MemoryCacheProvider.get
      ⟨[("k", ⟨JVal.vnum 7, 0, some 10⟩)], 100, 300000⟩ "k" 10).1 =
      some (JVal.vnum 7) ∧
    ((MemoryCacheProvider.get
      ⟨[("k", ⟨JVal.vnum 7, 0, some 10⟩)], 100, 300000⟩ "k" 11).1 = none ∧
    (MemoryCacheProvider.get
      ⟨[("k", ⟨JVal.vnum 7, 0, some 10⟩)], 100, 300000⟩
        "k" 11).2.cache.lookup "k" = none) :=
  ⟨(MemoryCacheProvider.get_respects_effective_ttl
      ⟨[("k", ⟨JVal.vnum 7, 0, some 10⟩)], 100, 300000⟩ "k" 10
      ⟨JVal.vnum 7, 0, some 10⟩ rfl).1 (by decide),
   (MemoryCacheProvider.get_respects_effective_ttl
      ⟨[("k", ⟨JVal.vnum 7, 0, some 10⟩)], 100, 300000⟩ "k" 11
      ⟨JVal.vnum 7, 0, some 10⟩ rfl).2 (by decide)⟩

/-- Counterexample to C5 as stated: the entry for `"a"` was stored at time
`0`; a successful `get` at time `5` returns it, but the entry kept in the
table still has timestamp `0`, not the current time `5` — a read does not
reset the stored timestamp. -/
theorem MemoryCacheProvider.get_does_not_reset_timestamp :
    List.lookup "a"
      (MemoryCacheProvider.get
        ⟨[("a", ⟨JVal.vnum 1, 0, none⟩)], 100, 100⟩ "a" 5).2.cache =
      some ⟨JVal.vnum 1, 0, none⟩ ∧
    (0 : Int) ≠ 5 :=
  ⟨rfl, by decide⟩

/-- C5 amended: a successful `get` on a live entry returns its value and
moves the entry — unchanged, with its stored timestamp intact — to the
most-recently-used position (the end of the iteration order). -/
theorem MemoryCacheProvider.get_moves_live_entry_to_mru_unchanged
    (s : MemoryCacheState) (key : String) (now : Int) (e : CacheEntry)
    (h : s.cache.lookup key = some e)
    (hl : now - e.timestamp ≤ ttlOrDefault e.ttl s.defaultTtl) :
    MemoryCacheProvider.get s key now =
      (some e.data, { s with cache := mapDelete s.cache key ++ [(key, e)] }) := by
  rw [MemoryCacheProvider.get_eq_of_live h hl]
  have : mapSet (mapDelete s.cache key) key e =
      mapDelete s.cache key ++ [(key, e)] := by
    simp [mapSet, any_mapDelete_self]
  rw [this]

/-- Witness for the amended C5 at a concrete two-entry cache: `get "a"`
moves the `"a"` entry behind `"b"` with its timestamp still `0`. -/
theorem MemoryCacheProvider.get_moves_live_entry_witness :
    MemoryCacheProvider.get
      ⟨[("a", ⟨JVal.vnum 1, 0, none⟩), ("b", ⟨JVal.vnum 2, 3, none⟩)],
        100, 100⟩ "a" 5 =
      (some (JVal.vnum 1),
        ⟨[("b", ⟨JVal.vnum 2, 3, none⟩), ("a", ⟨JVal.vnum 1, 0, none⟩)],
          100, 100⟩) :=
  MemoryCacheProvider.get_moves_live_entry_to_mru_unchanged
    ⟨[("a", ⟨JVal.vnum 1, 0, none⟩), ("b", ⟨JVal.vnum 2, 3, none⟩)], 100, 100⟩
    "a" 5 ⟨JVal.vnum 1, 0, none⟩ rfl (by decide)

/-- C7: over a custom cache provider that does not expose `getStats`,
`clearCache` with a wildcard key (containing `*`) returns normally, performs
no `clear` call, and leaves the underlying cache state unchanged. -/
theorem CachedDataProvider.clearCache_wildcard_without_stats_noop
    {σ : Type} (cp : CustomCacheProvider σ) (st : σ) (k : String)
    (hns : cp.getStats = none) (hstar : containsStar k = true)
    (hne : k ≠ "") :
    CachedDataProvider.clearCache cp st (some k) = st := by
  simp only [CachedDataProvider.clearCache, hne, hstar, hns, if_true,
    if_false]

/-- Witness for C7: a stats-less provider over `Nat` states whose `clear`
would increment the state; wildcard `clearCache "get:*"` leaves state `5`
untouched. -/
theorem CachedDataProvider.clearCache_wildcard_without_stats_witness :
    CachedDataProvider.clearCache
      (⟨fun _ _ => none, fun s _ _ _ => s, fun s _ => s + 1, none⟩ :
        CustomCacheProvider Nat) 5 (some "get:*") = 5 :=
  CachedDataProvider.clearCache_wildcard_without_stats_noop
    ⟨fun _ _ => none, fun s _ _ _ => s, fun s _ => s + 1, none⟩ 5 "get:*"
    rfl rfl (by decide)

/-- Counterexample to C8 as stated: `clear("")` on a table that does not
contain the key `""` does not leave the table unchanged — `if (key)` treats
the empty string as "no key given" and clears the whole table. -/
theorem MemoryCacheProvider.clear_empty_string_clears_all :
    List.lookup ""
      ([("a", (⟨JVal.vnum 1, 0, none⟩ : CacheEntry))]) = none ∧
    (MemoryCacheProvider.clear
      ⟨[("a", ⟨JVal.vnum 1, 0, none⟩)], 100, 100⟩ (some "")).cache = [] ∧
    ([("a", (⟨JVal.vnum 1, 0, none⟩ : CacheEntry))] : List _) ≠ [] :=
  ⟨rfl, rfl, by simp⟩

/-- C8 amended: `clear` never fails (it is a total state function); for every
nonempty key absent from the table the table is unchanged; `clear` with any
key is idempotent; and `clear("")` behaves as `clear()` (clear all) rather
than as a single-key clear. -/
theorem MemoryCacheProvider.clear_idempotent_and_noop_on_missing
    (s : MemoryCacheState) (key : Option String) (k : String)
    (hk : k ≠ "") (habs : s.cache.lookup k = none) :
    MemoryCacheProvider.clear (MemoryCacheProvider.clear s key) key =
      MemoryCacheProvider.clear s key ∧
    MemoryCacheProvider.clear s (some k) = s ∧
    MemoryCacheProvider.clear s (some "") = MemoryCacheProvider.clear s none := by
  refine ⟨?_, ?_, rfl⟩
  · cases key with
    | none => rfl
    | some k0 =>
      by_cases h0 : k0 = ""
      · simp [MemoryCacheProvider.clear, h0]
      · simp only [MemoryCacheProvider.clear, h0, if_false]
        rw [mapDelete_eq_self_of_lookup_none (lookup_mapDelete_self _ _)]
  · simp only [MemoryCacheProvider.clear, hk, if_false]
    rw [mapDelete_eq_self_of_lookup_none habs]

/-- Witness for the amended C8 at a concrete one-entry cache and key
`"x"` (absent): double clear equals single clear, clearing the missing key
changes nothing, and `clear("")` equals `clear()`. -/
theorem MemoryCacheProvider.clear_idempotent_witness :
    MemoryCacheProvider.clear
      (MemoryCacheProvider.clear
        ⟨[("a", ⟨JVal.vnum 1, 0, none⟩)], 100, 100⟩ (some "a")) (some "a") =
      MemoryCacheProvider.clear
        ⟨[("a", ⟨JVal.vnum 1, 0, none⟩)], 100, 100⟩ (some "a") ∧
    MemoryCacheProvider.clear
      ⟨[("a", ⟨JVal.vnum 1, 0, none⟩)], 100, 100⟩ (some "x") =
      ⟨[("a", ⟨JVal.vnum 1, 0, none⟩)], 100, 100⟩ ∧
    MemoryCacheProvider.clear
      ⟨[("a", ⟨JVal.vnum 1, 0, none⟩)], 100, 100⟩ (some "") =
      MemoryCacheProvider.clear
        ⟨[("a", ⟨JVal.vnum 1, 0, none⟩)], 100, 100⟩ none :=
  MemoryCacheProvider.clear_idempotent_and_noop_on_missing
    ⟨[("a", ⟨JVal.vnum 1, 0, none⟩)], 100, 100⟩ (some "a") "x"
    (by decide) rfl

/-- C9: a per-entry TTL of `0` is falsy in `entry.ttl || defaultTtl`, so
`get` and `cleanup` treat it exactly as an absent TTL and apply the cache's
configured default; and `setCacheEntryManually(key, data, 0)` stores the
entry under the configured default TTL (`ttl || this.config.defaultTTL`),
not an immediately-expired one. -/
theorem cache_ttl_zero_treated_as_default
    (s : MemoryCacheState) (key : String) (now : Int) (v : JVal) (ts : Int)
    (sc : CachedDataProviderState) (k2 : String) (d : JVal) (n2 : Int)
    (h : s.cache.lookup key = some ⟨v, ts, some 0⟩)
    (hnd : (s.cache.map Prod.fst).Nodup) :
    ((MemoryCacheProvider.get s key now).1 =
      if now - ts ≤ s.defaultTtl then some v else none) ∧
    ((MemoryCacheProvider.cleanup s now).1.cache.lookup key =
      if now - ts ≤ s.defaultTtl then some ⟨v, ts, some 0⟩ else none) ∧
    CachedDataProvider.setCacheEntryManually sc k2 d (some 0) n2 =
      CachedDataProvider.setCacheEntryManually sc k2 d (some sc.defaultTTL)
        n2 := by
  have htd : ttlOrDefault (some 0) s.defaultTtl = s.defaultTtl := rfl
  refine ⟨?_, ?_, ?_⟩
  · by_cases hl : now - ts ≤ s.defaultTtl
    · rw [if_pos hl, MemoryCacheProvider.get_eq_of_live h
        (show now - ts ≤ s.defaultTtl from hl)]
    · rw [if_neg hl, MemoryCacheProvider.get_eq_of_expired h
        (show now - ts > s.defaultTtl by omega)]
  · rw [MemoryCacheProvider.cleanup]
    simp only
    rw [lookup_filter_of_nodup _ hnd h]
    by_cases hl : now - ts ≤ s.defaultTtl
    · rw [if_pos hl, if_pos]
      simp only [htd]
      simpa using hl
    · rw [if_neg hl, if_neg]
      simp only [htd]
      simpa using hl
  · by_cases h0 : sc.defaultTTL = 0
    · simp [CachedDataProvider.setCacheEntryManually, h0]
    · simp [CachedDataProvider.setCacheEntryManually, h0]

/-- Witness for C9: an entry with TTL `0` stored at time `0`, default TTL
`100`: `get` at `now = 50` returns the value, `cleanup` at `50` keeps the
entry, and a manual cache write with TTL `0` equals one with TTL `100`. -/
theorem cache_ttl_zero_treated_as_default_witness :
    ((MemoryCacheProvider.get
      ⟨[("k", ⟨JVal.vnum 7, 0, some 0⟩)], 10, 100⟩ "k" 50).1 =
      if (50 : Int) - 0 ≤ 100 then some (JVal.vnum 7) else none) ∧
    ((MemoryCacheProvider.cleanup
      ⟨[("k", ⟨JVal.vnum 7, 0, some 0⟩)], 10, 100⟩ 50).1.cache.lookup "k" =
      if (50 : Int) - 0 ≤ 100 then some ⟨JVal.vnum 7, 0, some 0⟩ else none) ∧
    CachedDataProvider.setCacheEntryManually ⟨⟨[], 10, 100⟩, 100⟩ "m"
      (JVal.vnum 8) (some 0) 3 =
      CachedDataProvider.setCacheEntryManually ⟨⟨[], 10, 100⟩, 100⟩ "m"
        (JVal.vnum 8) (some 100) 3 :=
  cache_ttl_zero_treated_as_default
    ⟨[("k", ⟨JVal.vnum 7, 0, some 0⟩)], 10, 100⟩ "k" 50 (JVal.vnum 7) 0
    ⟨⟨[], 10, 100⟩, 100⟩ "m" (JVal.vnum 8) 3 rfl (by simp)

/-- C10: when the collaborator's response carries a falsy `data` value
(`0`, `""`, `false`, `null`/`undefined`) and any value cached under the
operation's key is falsy (which the providers themselves guarantee, since a
falsy response is never stored), both `get` and `select` take the miss path:
the collaborator is invoked, its response is returned with `cached: false`,
and the falsy value is not stored — the cache table is exactly what the
cache-provider lookup left behind. -/
theorem CachedDataProvider.falsy_data_never_cached_never_hit
    (s : CachedDataProviderState) (provider : String → DataResponse)
    (providerSel : String → String → DataResponse)
    (slug schema optionsJson : String) (now : Int)
    (hf : truthy (provider slug).data = false)
    (hfs : truthy (providerSel schema optionsJson).data = false)
    (hv : ∀ v, (MemoryCacheProvider.get s.cache ("get:" ++ slug) now).1 =
      some v → truthy v = false)
    (hvs : ∀ v, (MemoryCacheProvider.get s.cache
      ("select:" ++ schema ++ ":" ++ optionsJson) now).1 = some v →
      truthy v = false) :
    (CachedDataProvider.get s provider slug now =
      ({ provider slug with cached := some false },
        { s with cache :=
          (MemoryCacheProvider.get s.cache ("get:" ++ slug) now).2 })) ∧
    (CachedDataProvider.select s providerSel schema optionsJson now =
      ({ providerSel schema optionsJson with cached := some false },
        { s with cache := (MemoryCacheProvider.get s.cache
          ("select:" ++ schema ++ ":" ++ optionsJson) now).2 })) := by
  constructor
  · rcases hr : MemoryCacheProvider.get s.cache ("get:" ++ slug) now
      with ⟨r1, c'⟩
    cases r1 with
    | none =>
      rw [CachedDataProvider.get_eq_miss provider hr]
      simp only [CachedDataProvider.missFetch, hf, Bool.false_eq_true,
        if_false, hr]
    | some v =>
      have hv' : truthy v = false := hv v (by rw [hr])
      rw [CachedDataProvider.get_eq_miss_falsy provider hr hv']
      simp only [CachedDataProvider.missFetch, hf, Bool.false_eq_true,
        if_false, hr]
  · rcases hr : MemoryCacheProvider.get s.cache
      ("select:" ++ schema ++ ":" ++ optionsJson) now with ⟨r1, c'⟩
    cases r1 with
    | none =>
      rw [CachedDataProvider.select_eq_miss providerSel hr]
      simp only [CachedDataProvider.missFetch, hfs, Bool.false_eq_true,
        if_false, hr]
    | some v =>
      have hv' : truthy v = false := hvs v (by rw [hr])
      rw [CachedDataProvider.select_eq_miss_falsy providerSel hr hv']
      simp only [CachedDataProvider.missFetch, hfs, Bool.false_eq_true,
        if_false, hr]

/-- Witness for C10: a falsy value `0` is seeded under both operation keys,
the collaborators return falsy data (`0` for `get`, `null` for `select`);
both calls report `cached: false` and store nothing. -/
theorem CachedDataProvider.falsy_data_never_cached_witness :
    (CachedDataProvider.get
      ⟨⟨[("get:x", ⟨JVal.vnum 0, 0, none⟩),
         ("select:s:o", ⟨JVal.vnum 0, 0, none⟩)], 100, 1000⟩, 500⟩
      (fun _ => ⟨JVal.vnum 0, none, none, none, none⟩) "x" 1 =
      (⟨JVal.vnum 0, none, none, some false, none⟩,
        ⟨⟨[("select:s:o", ⟨JVal.vnum 0, 0, none⟩),
           ("get:x", ⟨JVal.vnum 0, 0, none⟩)], 100, 1000⟩, 500⟩)) ∧
    (CachedDataProvider.select
      ⟨⟨[("get:x", ⟨JVal.vnum 0, 0, none⟩),
         ("select:s:o", ⟨JVal.vnum 0, 0, none⟩)], 100, 1000⟩, 500⟩
      (fun _ _ => ⟨JVal.vnull, none, none, none, none⟩) "s" "o" 1 =
      (⟨JVal.vnull, none, none, some false, none⟩,
        ⟨⟨[("get:x", ⟨JVal.vnum 0, 0, none⟩),
           ("select:s:o", ⟨JVal.vnum 0, 0, none⟩)], 100, 1000⟩, 500⟩)) :=
  CachedDataProvider.falsy_data_never_cached_never_hit
    ⟨⟨[("get:x", ⟨JVal.vnum 0, 0, none⟩),
       ("select:s:o", ⟨JVal.vnum 0, 0, none⟩)], 100, 1000⟩, 500⟩
    (fun _ => ⟨JVal.vnum 0, none, none, none, none⟩)
    (fun _ _ => ⟨JVal.vnull, none, none, none, none⟩) "x" "s" "o" 1
    rfl rfl
    (fun v hvv => by
      have h0 : JVal.vnum 0 = v := Option.some.inj hvv
      rw [← h0]
      decide)
    (fun v hvv => by
      have h0 : JVal.vnum 0 = v := Option.some.inj hvv
      rw [← h0]
      decide)

theorem MemoryCacheProvider.lookup_set_self (s : MemoryCacheState)
    (key : String) (v : JVal) (ttl : Option Int) (now : Int) :
    (MemoryCacheProvider.set s key v ttl now).cache.lookup key =
      some ⟨v, now, ttl⟩ := by
  simp only [MemoryCacheProvider.set]
  exact lookup_mapSet_self _ _ _

theorem MemoryCacheProvider.get_preserves_defaultTtl (s : MemoryCacheState)
    (key : String) (now : Int) :
    (MemoryCacheProvider.get s key now).2.defaultTtl = s.defaultTtl := by
  cases h : s.cache.lookup key with
  | none => rw [MemoryCacheProvider.get_eq_of_lookup_none now h]
  | some e =>
    by_cases hl : now - e.timestamp ≤ ttlOrDefault e.ttl s.defaultTtl
    · rw [MemoryCacheProvider.get_eq_of_live h hl]
    · rw [MemoryCacheProvider.get_eq_of_expired h (by omega)]

/-- C6: with caching enabled and no live cached value under `"get:" + slug`,
`CachedDataProvider.get(slug)` fetches from the collaborator, stores the
(truthy) response data under the cache key with the configured default TTL,
and returns the response with `cached: false`; a second `get(slug)` before
the stored entry expires returns `cached: true` with identical data. -/
theorem CachedDataProvider.miss_fetches_stores_then_hits
    (s : CachedDataProviderState) (provider : String → DataResponse)
    (slug : String) (now now' : Int)
    (hmiss : (MemoryCacheProvider.get s.cache ("get:" ++ slug) now).1 = none)
    (ht : truthy (provider slug).data = true)
    (hlive : now' - now ≤ ttlOrDefault (some s.defaultTTL)
      s.cache.defaultTtl) :
    (CachedDataProvider.get s provider slug now).1 =
      { provider slug with cached := some false } ∧
    (CachedDataProvider.get s provider slug now).2.cache.cache.lookup
      ("get:" ++ slug) = some ⟨(provider slug).data, now, some s.defaultTTL⟩ ∧
    (CachedDataProvider.get (CachedDataProvider.get s provider slug now).2
      provider slug now').1 = { provider slug with cached := some true } ∧
    (CachedDataProvider.get (CachedDataProvider.get s provider slug now).2
      provider slug now').1.data =
      (CachedDataProvider.get s provider slug now).1.data := by
  rcases hr : MemoryCacheProvider.get s.cache ("get:" ++ slug) now
    with ⟨r1, c'⟩
  rw [hr] at hmiss
  simp only at hmiss
  subst hmiss
  have hfirst : CachedDataProvider.get s provider slug now =
      ({ provider slug with cached := some false },
        { s with cache := (MemoryCacheProvider.set c' ("get:" ++ slug)
          (provider slug).data (some s.defaultTTL) now) }) := by
    rw [CachedDataProvider.get_eq_miss provider hr]
    simp only [CachedDataProvider.missFetch, ht, if_true]
  have h2 : (CachedDataProvider.get s provider slug now).2.cache.cache.lookup
      ("get:" ++ slug) =
      some ⟨(provider slug).data, now, some s.defaultTTL⟩ := by
    rw [hfirst]
    exact MemoryCacheProvider.lookup_set_self c' ("get:" ++ slug)
      (provider slug).data (some s.defaultTTL) now
  have hdt : (CachedDataProvider.get s provider slug now).2.cache.defaultTtl =
      s.cache.defaultTtl := by
    rw [hfirst]
    have hg := MemoryCacheProvider.get_preserves_defaultTtl s.cache
      ("get:" ++ slug) now
    rw [hr] at hg
    exact hg
  have hl2 : now' - (⟨(provider slug).data, now, some s.defaultTTL⟩ :
      CacheEntry).timestamp ≤
      ttlOrDefault (⟨(provider slug).data, now, some s.defaultTTL⟩ :
        CacheEntry).ttl
        (CachedDataProvider.get s provider slug now).2.cache.defaultTtl := by
    show now' - now ≤ ttlOrDefault (some s.defaultTTL) _
    rw [hdt]
    exact hlive
  have hsec := MemoryCacheProvider.get_eq_of_live h2 hl2
  have hsec' := CachedDataProvider.get_eq_hit provider hsec ht
  refine ⟨by rw [hfirst], h2, ?_, ?_⟩
  · rw [hsec']
  · rw [hsec', hfirst]

/-- Witness for C6, the spec scenario: a default-enabled wrapper around a
collaborator returning `{name:"Q"}` for slug `"company"`; the first call
reports `cached: false` and stores the object, the second reports
`cached: true` with identical data. -/
theorem CachedDataProvider.miss_fetches_stores_then_hits_witness :
    (CachedDataProvider.get ⟨⟨[], 100, 1000⟩, 500⟩
      (fun _ => ⟨JVal.vobj [("name", JVal.vstr "Q")], none, none, none, none⟩)
      "company" 0).1 =
      ⟨JVal.vobj [("name", JVal.vstr "Q")], none, none, some false, none⟩ ∧
    (CachedDataProvider.get ⟨⟨[], 100, 1000⟩, 500⟩
      (fun _ => ⟨JVal.vobj [("name", JVal.vstr "Q")], none, none, none, none⟩)
      "company" 0).2.cache.cache.lookup "get:company" =
      some ⟨JVal.vobj [("name", JVal.vstr "Q")], 0, some 500⟩ ∧
    (CachedDataProvider.get
      (CachedDataProvider.get ⟨⟨[], 100, 1000⟩, 500⟩
        (fun _ => ⟨JVal.vobj [("name", JVal.vstr "Q")], none, none, none,
          none⟩) "company" 0).2
      (fun _ => ⟨JVal.vobj [("name", JVal.vstr "Q")], none, none, none, none⟩)
      "company" 1).1 =
      ⟨JVal.vobj [("name", JVal.vstr "Q")], none, none, some true, none⟩ ∧
    (CachedDataProvider.get
      (CachedDataProvider.get ⟨⟨[], 100, 1000⟩, 500⟩
        (fun _ => ⟨JVal.vobj [("name", JVal.vstr "Q")], none, none, none,
          none⟩) "company" 0).2
      (fun _ => ⟨JVal.vobj [("name", JVal.vstr "Q")], none, none, none, none⟩)
      "company" 1).1.data =
      (CachedDataProvider.get ⟨⟨[], 100, 1000⟩, 500⟩
        (fun _ => ⟨JVal.vobj [("name", JVal.vstr "Q")], none, none, none,
          none⟩) "company" 0).1.data :=
  CachedDataProvider.miss_fetches_stores_then_hits ⟨⟨[], 100, 1000⟩, 500⟩
    (fun _ => ⟨JVal.vobj [("name", JVal.vstr "Q")], none, none, none, none⟩)
    "company" 0 1 rfl rfl (by decide)

/-- The cache state after the C3 scenario prefix on a fresh
`MemoryCacheProvider` with `maxSize = 2`: `set("a",1)`, `set("b",2)`,
`get("a")`, `set("c",3)`, at times `t1`–`t4`. -/
def lruScenarioState (dtl t1 t2 t3 t4 : Int) : MemoryCacheState :=
  MemoryCacheProvider.runOps (MemoryCacheProvider.empty 2 dtl)
    [CacheOp.opSet "a" (JVal.vnum 1) none t1,
     CacheOp.opSet "b" (JVal.vnum 2) none t2,
     CacheOp.opGet "a" t3,
     CacheOp.opSet "c" (JVal.vnum 3) none t4]

/-- C3: on a fresh cache with `maxSize = 2`, after `set("a",1)`,
`set("b",2)`, `get("a")` (which touches `"a"`), `set("c",3)` evicts exactly
the least-recently-used key `"b"`: the table holds exactly `"a"` and `"c"`,
`get("b")` returns absent, and `get("a")` and `get("c")` return their stored
values.  The hypotheses say no involved entry has expired at its read time
(the runs of the scenario use a default TTL larger than the elapsed
times). -/
theorem MemoryCacheProvider.lru_scenario_evicts_b
    (dtl t1 t2 t3 t4 t5 t6 t7 : Int)
    (h3 : t3 - t1 ≤ dtl) (h6 : t6 - t1 ≤ dtl) (h7 : t7 - t4 ≤ dtl) :
    (lruScenarioState dtl t1 t2 t3 t4).cache.map Prod.fst = ["a", "c"] ∧
    (MemoryCacheProvider.get (lruScenarioState dtl t1 t2 t3 t4) "b" t5).1 =
      none ∧
    (MemoryCacheProvider.get (lruScenarioState dtl t1 t2 t3 t4) "a" t6).1 =
      some (JVal.vnum 1) ∧
    (MemoryCacheProvider.get
      (MemoryCacheProvider.get (lruScenarioState dtl t1 t2 t3 t4) "a" t6).2
      "c" t7).1 = some (JVal.vnum 3) := by
  have hlook3 : (⟨[("a", ⟨JVal.vnum 1, t1, none⟩),
      ("b", ⟨JVal.vnum 2, t2, none⟩)], 2, dtl⟩ :
      MemoryCacheState).cache.lookup "a" = some ⟨JVal.vnum 1, t1, none⟩ := rfl
  have egeta : MemoryCacheProvider.get
      ⟨[("a", ⟨JVal.vnum 1, t1, none⟩), ("b", ⟨JVal.vnum 2, t2, none⟩)],
        2, dtl⟩ "a" t3 =
      (some (JVal.vnum 1),
        ⟨[("b", ⟨JVal.vnum 2, t2, none⟩), ("a", ⟨JVal.vnum 1, t1, none⟩)],
          2, dtl⟩) :=
    MemoryCacheProvider.get_eq_of_live hlook3 h3
  have hs4 : lruScenarioState dtl t1 t2 t3 t4 =
      ⟨[("a", ⟨JVal.vnum 1, t1, none⟩), ("c", ⟨JVal.vnum 3, t4, none⟩)],
        2, dtl⟩ := by
    show MemoryCacheProvider.set
      (MemoryCacheProvider.get
        ⟨[("a", ⟨JVal.vnum 1, t1, none⟩), ("b", ⟨JVal.vnum 2, t2, none⟩)],
          2, dtl⟩ "a" t3).2 "c" (JVal.vnum 3) none t4 = _
    rw [egeta]
    rfl
  have hlook6 : (⟨[("a", ⟨JVal.vnum 1, t1, none⟩),
      ("c", ⟨JVal.vnum 3, t4, none⟩)], 2, dtl⟩ :
      MemoryCacheState).cache.lookup "a" = some ⟨JVal.vnum 1, t1, none⟩ := rfl
  have egeta6 : MemoryCacheProvider.get
      ⟨[("a", ⟨JVal.vnum 1, t1, none⟩), ("c", ⟨JVal.vnum 3, t4, none⟩)],
        2, dtl⟩ "a" t6 =
      (some (JVal.vnum 1),
        ⟨[("c", ⟨JVal.vnum 3, t4, none⟩), ("a", ⟨JVal.vnum 1, t1, none⟩)],
          2, dtl⟩) :=
    MemoryCacheProvider.get_eq_of_live hlook6 h6
  have hlookb : (⟨[("a", ⟨JVal.vnum 1, t1, none⟩),
      ("c", ⟨JVal.vnum 3, t4, none⟩)], 2, dtl⟩ :
      MemoryCacheState).cache.lookup "b" = none := rfl
  refine ⟨by rw [hs4]; rfl, ?_, ?_, ?_⟩
  · rw [hs4, MemoryCacheProvider.get_eq_of_lookup_none t5 hlookb]
  · rw [hs4, egeta6]
  · rw [hs4, egeta6]
    have hlook7 : (⟨[("c", ⟨JVal.vnum 3, t4, none⟩),
        ("a", ⟨JVal.vnum 1, t1, none⟩)], 2, dtl⟩ :
        MemoryCacheState).cache.lookup "c" = some ⟨JVal.vnum 3, t4, none⟩ :=
      rfl
    rw [MemoryCacheProvider.get_eq_of_live hlook7 h7]

/-- Witness for C3 with all operations at time `0` and a default TTL of
`300000` (the `MemoryCacheProvider` default): the table is exactly
`["a", "c"]`, `"b"` is absent, `"a"` and `"c"` are present. -/
theorem MemoryCacheProvider.lru_scenario_evicts_b_witness :
    (lruScenarioState 300000 0 0 0 0).cache.map Prod.fst = ["a", "c"] ∧
    (MemoryCacheProvider.get (lruScenarioState 300000 0 0 0 0) "b" 0).1 =
      none ∧
    (MemoryCacheProvider.get (lruScenarioState 300000 0 0 0 0) "a" 0).1 =
      some (JVal.vnum 1) ∧
    (MemoryCacheProvider.get
      (MemoryCacheProvider.get (lruScenarioState 300000 0 0 0 0) "a" 0).2
      "c" 0).1 = some (JVal.vnum 3) :=
  MemoryCacheProvider.lru_scenario_evicts_b 300000 0 0 0 0 0 0 0
    (by decide) (by decide) (by decide)

theorem mem_of_lookup_eq_some {α : Type} {m : List (String × α)} {k : String}
    {e : α} (h : List.lookup k m = some e) : (k, e) ∈ m := by
  induction m with
  | nil => simp at h
  | cons p t ih =>
    by_cases hp : k = p.1
    · rw [show p = (p.1, p.2) from rfl, ← hp, lookup_cons_self] at h
      have he : p.2 = e := by simpa using h
      rw [show p = (p.1, p.2) from rfl, ← hp, he]
      exact List.mem_cons_self _ _
    · rw [show p = (p.1, p.2) from rfl, lookup_cons_ne p.2 t hp] at h
      exact List.mem_cons_of_mem _ (ih h)

theorem any_key_eq_true_of_mem {α : Type} {m : List (String × α)}
    {k : String} {e : α} (h : (k, e) ∈ m) :
    (m.any fun p => p.1 == k) = true := by
  rw [List.any_eq_true]
  exact ⟨(k, e), h, by simp⟩

/-- A predicate on operations: every `set` uses a nonempty key. -/
def CacheOp.setKeyOk : CacheOp → Bool
  | CacheOp.opSet k _ _ _ => k != ""
  | _ => true

/-- The inductive invariant behind the C2 size bound: the table has at most
`maxSize` entries and no entry has the empty-string key. -/
def sizeKeysInv (s : MemoryCacheState) : Prop :=
  s.cache.length ≤ s.maxSize ∧ ∀ p ∈ s.cache, p.1 ≠ ""


theorem MemoryCacheProvider.set_preserves_inv {s : MemoryCacheState}
    {key : String} (value : JVal) (ttl : Option Int) (now : Int)
    (hms : 1 ≤ s.maxSize) (hk : key ≠ "") (hinv : sizeKeysInv s) :
    sizeKeysInv (MemoryCacheProvider.set s key value ttl now) := by
  obtain ⟨hlen, hkeys⟩ := hinv
  simp only [MemoryCacheProvider.set]
  by_cases hany : (s.cache.any fun p => p.1 == key) = true
  · -- key already present: its removal brings the size strictly below
    -- maxSize, so no eviction happens
    have hlt : (mapDelete s.cache key).length < s.cache.length :=
      length_mapDelete_lt hany
    have hc0 : ¬(s.maxSize ≤ (mapDelete s.cache key).length) := by omega
    simp only [hany, if_true, hc0, if_false]
    constructor
    · calc (mapSet (mapDelete s.cache key) key
            (⟨value, now, ttl⟩ : CacheEntry)).length
          ≤ (mapDelete s.cache key).length + 1 := length_mapSet_le _ _ _
        _ ≤ s.maxSize := by omega
    · intro p hp
      rcases mem_mapSet hp with hmem | heq
      · exact hkeys p (mem_mapDelete hmem)
      · rw [heq]
        exact hk
  · rw [Bool.not_eq_true] at hany
    simp only [hany, Bool.false_eq_true, if_false]
    by_cases hfull : s.maxSize ≤ s.cache.length
    · -- table at capacity: the oldest entry exists, has a nonempty key,
      -- and is evicted before the new entry is appended
      rcases hcc : s.cache with _ | ⟨p0, rest⟩
      · rw [hcc] at hfull
        simp only [List.length_nil] at hfull
        omega
      · have hp0mem : p0 ∈ s.cache := by
          rw [hcc]
          exact List.mem_cons_self _ _
        have hp0ne : p0.1 ≠ "" := hkeys p0 hp0mem
        have hfull2 : s.maxSize ≤ (p0 :: rest).length := by
          rw [← hcc]
          exact hfull
        rw [if_pos hfull2]
        simp only [List.head?_cons]
        rw [if_pos hp0ne]
        have hanyp0 : ((p0 :: rest).any fun p => p.1 == p0.1) = true :=
          any_key_eq_true_of_mem (e := p0.2)
            (by rw [show (p0.1, p0.2) = p0 from rfl]; exact List.mem_cons_self _ _)
        have hdel : (mapDelete (p0 :: rest) p0.1).length <
            (p0 :: rest).length := length_mapDelete_lt hanyp0
        have hceq : s.cache.length = (p0 :: rest).length := by rw [hcc]
        constructor
        · calc (mapSet (mapDelete (p0 :: rest) p0.1) key
                (⟨value, now, ttl⟩ : CacheEntry)).length
              ≤ (mapDelete (p0 :: rest) p0.1).length + 1 :=
                length_mapSet_le _ _ _
            _ ≤ s.maxSize := by omega
        · intro p hp
          rcases mem_mapSet hp with hmem | heq
          · refine hkeys p ?_
            rw [hcc]
            exact mem_mapDelete hmem
          · rw [heq]
            exact hk
    · simp only [hfull, if_false]
      constructor
      · calc (mapSet s.cache key (⟨value, now, ttl⟩ : CacheEntry)).length
            ≤ s.cache.length + 1 := length_mapSet_le _ _ _
          _ ≤ s.maxSize := by omega
      · intro p hp
        rcases mem_mapSet hp with hmem | heq
        · exact hkeys p hmem
        · rw [heq]
          exact hk

theorem MemoryCacheProvider.get_preserves_inv (s : MemoryCacheState)
    (key : String) (now : Int) (hinv : sizeKeysInv s) :
    sizeKeysInv (MemoryCacheProvider.get s key now).2 := by
  obtain ⟨hlen, hkeys⟩ := hinv
  cases h : s.cache.lookup key with
  | none =>
    rw [MemoryCacheProvider.get_eq_of_lookup_none now h]
    exact ⟨hlen, hkeys⟩
  | some e =>
    by_cases hl : now - e.timestamp ≤ ttlOrDefault e.ttl s.defaultTtl
    · rw [MemoryCacheProvider.get_eq_of_live h hl]
      have hmem : (key, e) ∈ s.cache := mem_of_lookup_eq_some h
      have hany : (s.cache.any fun p => p.1 == key) = true :=
        any_key_eq_true_of_mem hmem
      constructor
      · calc (mapSet (mapDelete s.cache key) key e).length
            ≤ (mapDelete s.cache key).length + 1 := length_mapSet_le _ _ _
          _ ≤ s.cache.length := by
              have := length_mapDelete_lt hany
              omega
          _ ≤ s.maxSize := hlen
      · intro p hp
        rcases mem_mapSet hp with hmem' | heq
        · exact hkeys p (mem_mapDelete hmem')
        · rw [heq]
          exact hkeys (key, e) hmem
    · rw [MemoryCacheProvider.get_eq_of_expired h (by omega)]
      exact ⟨le_trans (length_mapDelete_le _ _) hlen,
        fun p hp => hkeys p (mem_mapDelete hp)⟩

theorem MemoryCacheProvider.clear_preserves_inv (s : MemoryCacheState)
    (key : Option String) (hinv : sizeKeysInv s) :
    sizeKeysInv (MemoryCacheProvider.clear s key) := by
  obtain ⟨hlen, hkeys⟩ := hinv
  cases key with
  | none =>
    exact ⟨Nat.zero_le _, fun p hp => absurd hp (List.not_mem_nil p)⟩
  | some k =>
    by_cases h0 : k = ""
    · simp only [MemoryCacheProvider.clear, h0, if_true]
      exact ⟨Nat.zero_le _, fun p hp => absurd hp (List.not_mem_nil p)⟩
    · simp only [MemoryCacheProvider.clear, h0, if_false]
      exact ⟨le_trans (length_mapDelete_le _ _) hlen,
        fun p hp => hkeys p (mem_mapDelete hp)⟩

theorem MemoryCacheProvider.cleanup_preserves_inv (s : MemoryCacheState)
    (now : Int) (hinv : sizeKeysInv s) :
    sizeKeysInv (MemoryCacheProvider.cleanup s now).1 := by
  obtain ⟨hlen, hkeys⟩ := hinv
  exact ⟨le_trans (List.length_filter_le _ _) hlen,
    fun p hp => hkeys p (List.mem_of_mem_filter hp)⟩

theorem MemoryCacheProvider.get_preserves_maxSize (s : MemoryCacheState)
    (key : String) (now : Int) :
    (MemoryCacheProvider.get s key now).2.maxSize = s.maxSize := by
  cases h : s.cache.lookup key with
  | none => rw [MemoryCacheProvider.get_eq_of_lookup_none now h]
  | some e =>
    by_cases hl : now - e.timestamp ≤ ttlOrDefault e.ttl s.defaultTtl
    · rw [MemoryCacheProvider.get_eq_of_live h hl]
    · rw [MemoryCacheProvider.get_eq_of_expired h (by omega)]

theorem MemoryCacheProvider.step_preserves_maxSize (s : MemoryCacheState)
    (op : CacheOp) :
    (MemoryCacheProvider.step s op).maxSize = s.maxSize := by
  cases op with
  | opSet k v t n => rfl
  | opGet k n => exact MemoryCacheProvider.get_preserves_maxSize s k n
  | opClear k =>
    cases k with
    | none => rfl
    | some k0 =>
      by_cases h0 : k0 = ""
      · simp only [MemoryCacheProvider.step, MemoryCacheProvider.clear, h0,
          if_true]
      · simp only [MemoryCacheProvider.step, MemoryCacheProvider.clear, h0,
          if_false]
  | opCleanup n => rfl

theorem MemoryCacheProvider.step_preserves_inv (s : MemoryCacheState)
    (op : CacheOp) (hms : 1 ≤ s.maxSize) (hop : op.setKeyOk = true)
    (hinv : sizeKeysInv s) : sizeKeysInv (MemoryCacheProvider.step s op) := by
  cases op with
  | opSet k v t n =>
    have hk : k ≠ "" := by
      simpa [CacheOp.setKeyOk] using hop
    exact MemoryCacheProvider.set_preserves_inv v t n hms hk hinv
  | opGet k n => exact MemoryCacheProvider.get_preserves_inv s k n hinv
  | opClear k => exact MemoryCacheProvider.clear_preserves_inv s k hinv
  | opCleanup n => exact MemoryCacheProvider.cleanup_preserves_inv s n hinv

theorem MemoryCacheProvider.runOps_preserves_inv (ops : List CacheOp) :
    ∀ s : MemoryCacheState, 1 ≤ s.maxSize →
      ops.all CacheOp.setKeyOk = true → sizeKeysInv s →
      sizeKeysInv (MemoryCacheProvider.runOps s ops) ∧
      (MemoryCacheProvider.runOps s ops).maxSize = s.maxSize := by
  induction ops with
  | nil =>
    intro s _ _ hinv
    exact ⟨hinv, rfl⟩
  | cons op rest ih =>
    intro s hms hall hinv
    rw [List.all_cons, Bool.and_eq_true] at hall
    have h1 := MemoryCacheProvider.step_preserves_inv s op hms hall.1 hinv
    have hmax := MemoryCacheProvider.step_preserves_maxSize s op
    have h2 := ih (MemoryCacheProvider.step s op)
      (by rw [hmax]; exact hms) hall.2 h1
    refine ⟨h2.1, ?_⟩
    rw [show MemoryCacheProvider.runOps s (op :: rest) =
      MemoryCacheProvider.runOps (MemoryCacheProvider.step s op) rest
      from rfl, h2.2, hmax]

/-- Counterexample to C2 as stated.  Two configurations violate the size
bound: with `maxSize = 0`, a single `set("a",1)` leaves one entry (the
eviction branch finds no oldest key to remove and appends anyway); and with
`maxSize = 1`, `set("",1)` then `set("a",2)` leaves two entries — the oldest
key is the empty string, which fails the truthy guard `if (oldestKey)`, so
nothing is evicted before the insertion. -/
theorem MemoryCacheProvider.size_bound_counterexample :
    (MemoryCacheProvider.runOps (MemoryCacheProvider.empty 0 300000)
      [CacheOp.opSet "a" (JVal.vnum 1) none 0]).cache.length = 1 ∧
    (MemoryCacheProvider.runOps (MemoryCacheProvider.empty 1 300000)
      [CacheOp.opSet "" (JVal.vnum 1) none 0,
       CacheOp.opSet "a" (JVal.vnum 2) none 0]).cache.length = 2 :=
  ⟨rfl, rfl⟩

/-- C2 amended: for every `MemoryCacheProvider` with `maxSize ≥ 1` and every
operation sequence from the empty cache in which no `set` uses the
empty-string key, the table never exceeds `maxSize` entries — in particular
after any `set` completes.  (As stated the claim fails both for
`maxSize = 0` and for sequences that `set` the key `""`.) -/
theorem MemoryCacheProvider.size_le_maxSize_after_ops
    (maxSize : Nat) (dtl : Int) (ops : List CacheOp) (hms : 1 ≤ maxSize)
    (hops : ops.all CacheOp.setKeyOk = true) :
    (MemoryCacheProvider.runOps (MemoryCacheProvider.empty maxSize dtl)
      ops).cache.length ≤ maxSize := by
  have h := MemoryCacheProvider.runOps_preserves_inv ops
    (MemoryCacheProvider.empty maxSize dtl) hms hops
    ⟨Nat.zero_le _, fun p hp => absurd hp (List.not_mem_nil p)⟩
  have hlen := h.1.1
  rw [h.2] at hlen
  exact hlen

/-- Witness for the amended C2: `maxSize = 1` with three sets and a get on
nonempty keys; at most one entry remains. -/
theorem MemoryCacheProvider.size_le_maxSize_witness :
    (MemoryCacheProvider.runOps (MemoryCacheProvider.empty 1 300000)
      [CacheOp.opSet "a" (JVal.vnum 1) none 0,
       CacheOp.opSet "b" (JVal.vnum 2) none 1,
       CacheOp.opGet "b" 2,
       CacheOp.opSet "c" (JVal.vnum 3) none 3]).cache.length ≤ 1 :=
  MemoryCacheProvider.size_le_maxSize_after_ops 1 300000
    [CacheOp.opSet "a" (JVal.vnum 1) none 0,
     CacheOp.opSet "b" (JVal.vnum 2) none 1,
     CacheOp.opGet "b" 2,
     CacheOp.opSet "c" (JVal.vnum 3) none 3]
    (by decide) (by decide)
